import Mathlib

/-!
Verification development for the Steam download monitor
(`log_steam.py`, class `SteamDownloadMonitor`).

The script tails Steam's `content_log.txt`, keeps the last 50 lines,
scans them from the most recent to the oldest extracting the current
AppID, download rate, phase keyword and byte progress, resolves a game
name from the app manifest, and renders a per-tick report.

Shallow embedding conventions:
* a log line is a `List Char` (obtained from a string literal via `strL`);
* Python `re.search` calls are embedded as explicit leftmost scanners for
  the concrete patterns of the source; every character class used by a
  pattern (`\s`, `\d`, `[\d.]`, `[^"]`) is disjoint from what follows it,
  so greedy maximal-munch matching coincides with Python's backtracking
  semantics;
* Python floats are modelled as `ℚ` (every numeric value appearing in the
  claims is exactly representable, so no binary-rounding divergence is
  involved);
* a raised exception is an `Except.error`: the only statement in the
  modelled region that can raise is the `float(...)` conversion, and the
  6-element tuple unpacking in `display_info` applied to a 3-element
  return value (both raise `ValueError` in Python);
* the file-system is a parameter: the log file is `Option (List (List Char))`
  (`none` = absent or unreadable) and the manifest store is a function
  `List Char → Option (List Char)` from AppID to manifest content
  (`none` = absent or unreadable);
* `logger.info` output of `display_info` is modelled as the returned list
  of rendered lines; the three per-tick header lines (separator rules and
  the wall-clock timestamp) are omitted, being pure wall-clock I/O.
-/

/-- Characters of a string literal. -/
def strL (s : String) : List Char := s.data

/-- Match a literal pattern at the front of the haystack; on success return
the remainder of the haystack. -/
def litAt : List Char → List Char → Option (List Char)
  | [], hay => some hay
  | _ :: _, [] => none
  | n :: ns, c :: cs => if c = n then litAt ns cs else none

/-- Does the pattern occur at the front of the haystack? -/
def atFront (needle hay : List Char) : Bool :=
  (litAt needle hay).isSome

/-- Python's `needle in hay` substring test. -/
def hasSub (needle : List Char) : List Char → Bool
  | [] => atFront needle []
  | c :: cs => atFront needle (c :: cs) || hasSub needle cs

/-- Greedy run of characters satisfying `p`: returns the run and the rest. -/
def takeRun (p : Char → Bool) : List Char → List Char × List Char
  | [] => ([], [])
  | c :: cs =>
    if p c then
      let r := takeRun p cs
      (c :: r.1, r.2)
    else ([], c :: cs)

/-- ASCII whitespace class of Python's `\s`. -/
def isSpaceC (c : Char) : Bool :=
  c = ' ' || c = '\t' || c = '\n' || c = '\x0d' || c = '\x0b' || c = '\x0c'

/-- The character class `[\d.]` of the rate pattern. -/
def isRateTokC (c : Char) : Bool :=
  c.isDigit || c = '.'

/-- Numeric value of a digit run (Python `int`). -/
def digitsToNat (cs : List Char) : ℕ :=
  cs.foldl (fun a c => a * 10 + (c.toNat - 48)) 0

/-- Model of `re.search(r'AppID\s+(\d+)', line)` anchored at the current position:
literal `AppID`, one or more whitespace characters, then the captured
maximal digit run. -/
def matchAppIDAt (cs : List Char) : Option (List Char) :=
  match litAt (strL "AppID") cs with
  | none => none
  | some r =>
    let sp := takeRun isSpaceC r
    if sp.1.isEmpty then none
    else
      let dg := takeRun Char.isDigit sp.2
      if dg.1.isEmpty then none else some dg.1

/-- Model of `re.search(r'AppID\s+(\d+)', line)`: leftmost match over the line. -/
def searchAppID : List Char → Option (List Char)
  | [] => none
  | c :: cs =>
    match matchAppIDAt (c :: cs) with
    | some d => some d
    | none => searchAppID cs

/-- Model of `re.search(r'Current download rate:\s+([\d.]+)\s+Mbps', line)` anchored
at the current position; returns the captured `[\d.]+` token. -/
def matchRateAt (cs : List Char) : Option (List Char) :=
  match litAt (strL "Current download rate:") cs with
  | none => none
  | some r =>
    let sp := takeRun isSpaceC r
    if sp.1.isEmpty then none
    else
      let tok := takeRun isRateTokC sp.2
      if tok.1.isEmpty then none
      else
        let sp2 := takeRun isSpaceC tok.2
        if sp2.1.isEmpty then none
        else if (litAt (strL "Mbps") sp2.2).isSome then some tok.1 else none

/-- Leftmost match of the download-rate pattern over the line. -/
def searchRate : List Char → Option (List Char)
  | [] => none
  | c :: cs =>
    match matchRateAt (c :: cs) with
    | some t => some t
    | none => searchRate cs

/-- Model of `re.search(r'download\s+(\d+)/(\d+)', line)` anchored at the current
position; returns the two captured numbers. -/
def matchDownloadAt (cs : List Char) : Option (ℕ × ℕ) :=
  match litAt (strL "download") cs with
  | none => none
  | some r =>
    let sp := takeRun isSpaceC r
    if sp.1.isEmpty then none
    else
      let d1 := takeRun Char.isDigit sp.2
      if d1.1.isEmpty then none
      else
        match d1.2 with
        | '/' :: rest =>
          let d2 := takeRun Char.isDigit rest
          if d2.1.isEmpty then none
          else some (digitsToNat d1.1, digitsToNat d2.1)
        | _ => none

/-- Leftmost match of the `download (\d+)/(\d+)` pattern over the line. -/
def searchDownload : List Char → Option (ℕ × ℕ)
  | [] => none
  | c :: cs =>
    match matchDownloadAt (c :: cs) with
    | some dt => some dt
    | none => searchDownload cs

/-- Python `float(tok)` on a token drawn from the class `[\d.]+`: valid iff
it has at most one dot and at least one digit; raises `ValueError`
(modelled as `none`) otherwise. -/
def parseFloatTok (cs : List Char) : Option ℚ :=
  let dots := cs.count '.'
  if dots = 0 then
    if cs.isEmpty then none else some (digitsToNat cs : ℚ)
  else if dots = 1 then
    let ip := cs.takeWhile (fun c => c != '.')
    let fp := (cs.dropWhile (fun c => c != '.')).drop 1
    if ip.isEmpty && fp.isEmpty then none
    else some ((digitsToNat ip : ℚ) + (digitsToNat fp : ℚ) / (10 : ℚ) ^ fp.length)
  else none

/-- Model of `re.search(r'"name"\s+"([^"]+)"', content)` anchored at the current
position (first manifest layout). -/
def matchNameQAt (cs : List Char) : Option (List Char) :=
  match litAt (strL "\"name\"") cs with
  | none => none
  | some r =>
    let sp := takeRun isSpaceC r
    if sp.1.isEmpty then none
    else
      match sp.2 with
      | '"' :: rest =>
        let tok := takeRun (fun c => c != '"') rest
        if tok.1.isEmpty then none
        else
          match tok.2 with
          | '"' :: _ => some tok.1
          | _ => none
      | _ => none

/-- Leftmost match of the quoted-key manifest name pattern. -/
def searchNameQ : List Char → Option (List Char)
  | [] => none
  | c :: cs =>
    match matchNameQAt (c :: cs) with
    | some t => some t
    | none => searchNameQ cs

/-- Model of `re.search(r'name\s+"([^"]+)"', content)` anchored at the current
position (second manifest layout). -/
def matchNameBAt (cs : List Char) : Option (List Char) :=
  match litAt (strL "name") cs with
  | none => none
  | some r =>
    let sp := takeRun isSpaceC r
    if sp.1.isEmpty then none
    else
      match sp.2 with
      | '"' :: rest =>
        let tok := takeRun (fun c => c != '"') rest
        if tok.1.isEmpty then none
        else
          match tok.2 with
          | '"' :: _ => some tok.1
          | _ => none
      | _ => none

/-- Leftmost match of the bare-key manifest name pattern. -/
def searchNameB : List Char → Option (List Char)
  | [] => none
  | c :: cs =>
    match matchNameBAt (c :: cs) with
    | some t => some t
    | none => searchNameB cs

/-- A Python exception escaping the modelled code: the only one possible in
the modelled region is `ValueError` (from `float(...)` on a malformed token
and from unpacking a 3-tuple into 6 targets). -/
inductive PErr where
  | valueError
deriving DecidableEq

/-- Return value of `parse_log_file`: the source returns a 3-element tuple
`(None, None, None)` when the log file is absent or unreadable
(lines 93 and 105) and a 6-element tuple otherwise (lines 147 and 149). -/
inductive ParseRet where
  | tuple3 (appid : Option (List Char)) (speed : Option ℚ) (status : List Char)
  | tuple6 (appid : Option (List Char)) (speed : Option ℚ) (status : List Char)
      (progress : Option ℚ) (downloaded : Option ℕ) (total : Option ℕ)
deriving DecidableEq

/-- Per-line update of the `appid` variable (lines 114-117): the regex is
tried only while `appid` is still `None`, so the first match in the
backward scan wins. -/
def stepAppid (appid : Option (List Char)) (l : List Char) : Option (List Char) :=
  match appid with
  | some a => some a
  | none => searchAppID l

/-- Per-line update of the `download_speed` variable (lines 120-123): tried
only while still `None`; `float(...)` on the captured token may raise
`ValueError`, which the source does not catch. -/
def stepSpeed (speed : Option ℚ) (l : List Char) : Except PErr (Option ℚ) :=
  match speed with
  | some s => .ok (some s)
  | none =>
    match searchRate l with
    | none => .ok none
    | some tok =>
      match parseFloatTok tok with
      | some q => .ok (some q)
      | none => .error .valueError

/-- Per-line update of the `status` variable (lines 126-136): note there is
no `if status is ...` guard, so every phase-change line with a recognized
keyword overwrites the current value. -/
def stepStatus (status : List Char) (l : List Char) : List Char :=
  if hasSub (strL "App update changed") l then
    if hasSub (strL "Downloading") l then strL "загружается"
    else if hasSub (strL "Paused") l then strL "на паузе"
    else if hasSub (strL "Verifying") l then strL "проверка файлов"
    else if hasSub (strL "Preallocating") l then strL "подготовка места"
    else if hasSub (strL "Staging") l then strL "распаковка"
    else status
  else status

/-- The `for line in reversed(lines)` loop of `parse_log_file`
(lines 112-149): the argument list is already reversed (most recent line
first). An `update started` line whose size pair has `total > 0`, seen
while `appid` is resolved, returns immediately (line 147); falling off the
loop returns the 6-tuple of line 149. -/
def scanLines : List (List Char) → Option (List Char) → Option ℚ → List Char →
    Except PErr ParseRet
  | [], appid, speed, status => .ok (.tuple6 appid speed status none none none)
  | l :: rest, appid, speed, status =>
    match stepSpeed speed l with
    | .error e => .error e
    | .ok speed2 =>
      if hasSub (strL "update started") l && (stepAppid appid l).isSome then
        match searchDownload l with
        | some dt =>
          if 0 < dt.2 then
            .ok (.tuple6 (stepAppid appid l) speed2 (stepStatus status l)
              (some ((dt.1 : ℚ) / (dt.2 : ℚ) * 100)) (some dt.1) (some dt.2))
          else scanLines rest (stepAppid appid l) speed2 (stepStatus status l)
        | none => scanLines rest (stepAppid appid l) speed2 (stepStatus status l)
      else scanLines rest (stepAppid appid l) speed2 (stepStatus status l)

/-- Model of `lines[-50:]` (lines 99-102): keep only the last 50 lines. -/
def trimWindow (lines : List (List Char)) : List (List Char) :=
  if lines.length > 50 then lines.drop (lines.length - 50) else lines

/-- Model of `parse_log_file` (lines 89-149). The file argument is `none` when the
log file is absent (line 91) or unreadable (line 103), in which case the
source returns the 3-tuple `(None, None, None)`; otherwise it holds the
file's lines, oldest first. -/
def parse_log_file (file : Option (List (List Char))) : Except PErr ParseRet :=
  match file with
  | none => .ok (.tuple3 none none (strL "неизвестно"))
  | some lines =>
    scanLines (trimWindow lines).reverse none none (strL "неизвестно")

/-- Round to the nearest integer, ties to even — the rounding applied by
Python's fixed-point float formatting (all values formatted by the source
are nonnegative). -/
def roundHalfEven (q : ℚ) : ℤ :=
  let f := ⌊q⌋
  let r := q - f
  if r < 1 / 2 then f
  else if 1 / 2 < r then f + 1
  else if f % 2 = 0 then f else f + 1

/-- Decimal digits of a natural number, most significant first
(fuel-based to keep the recursion structural). -/
def natToDigitsAux : ℕ → ℕ → List Char
  | 0, _ => []
  | _ + 1, 0 => []
  | fuel + 1, n => natToDigitsAux fuel (n / 10) ++ [Char.ofNat (48 + n % 10)]

/-- Python `str(n)` for a natural number. -/
def natToDigits (n : ℕ) : List Char :=
  if n = 0 then ['0'] else natToDigitsAux (n + 1) n

/-- Python `f"{x:.{prec}f}"` for the nonnegative values the source formats:
scale, round half to even, and print with exactly `prec` fractional
digits. -/
def formatFixed (prec : ℕ) (q : ℚ) : List Char :=
  let n := (roundHalfEven (q * (10 : ℚ) ^ prec)).toNat
  let fd := natToDigits (n % 10 ^ prec)
  natToDigits (n / 10 ^ prec) ++ ['.'] ++
    (List.replicate (prec - fd.length) '0' ++ fd)

/-- Model of `format_speed` (lines 151-159). -/
def format_speed (speed_mbps : Option ℚ) : List Char :=
  match speed_mbps with
  | none => strL "неизвестно"
  | some s =>
    if s ≥ 1000 then formatFixed 2 (s / 1000) ++ strL " Gbps"
    else formatFixed 2 s ++ strL " Mbps"

/-- Model of `format_size` (lines 161-173). -/
def format_size (bytes_size : Option ℕ) : List Char :=
  match bytes_size with
  | none => strL "неизвестно"
  | some n =>
    if n ≥ 1024 ^ 3 then formatFixed 2 ((n : ℚ) / (1024 : ℚ) ^ 3) ++ strL " GB"
    else if n ≥ 1024 ^ 2 then formatFixed 2 ((n : ℚ) / (1024 : ℚ) ^ 2) ++ strL " MB"
    else if n ≥ 1024 then formatFixed 2 ((n : ℚ) / 1024) ++ strL " KB"
    else natToDigits n ++ strL " B"

/-- The fallback string `f"Игра (AppID: {appid})"` of line 87. -/
def placeholderName (appid : List Char) : List Char :=
  strL "Игра (AppID: " ++ appid ++ strL ")"

/-- Model of `get_game_name_from_manifest` (lines 66-87). The manifest store maps an
AppID to the content of `appmanifest_{appid}.acf`; `none` covers both a
missing file (line 70) and a read error (lines 83-84), which take the
same fallback path. -/
def get_game_name_from_manifest (store : List Char → Option (List Char))
    (appid : List Char) : List Char :=
  match store appid with
  | none => placeholderName appid
  | some content =>
    match searchNameQ content with
    | some nm => nm
    | none =>
      match searchNameB content with
      | some nm => nm
      | none => placeholderName appid

/-- The mutable monitor state touched by `display_info`: the
`(current_appid, game_name)` pair of `__init__` (lines 16-17). -/
structure MonState where
  current_appid : Option (List Char)
  game_name : Option (List Char)
deriving DecidableEq

/-- Python `str` of an optional string (`str(None) = "None"`), used when the
cached `game_name` is rendered. -/
def pyStrOpt : Option (List Char) → List Char
  | none => strL "None"
  | some s => s

/-- The report lines logged by `display_info` for a session with AppID `a`
(lines 189-200): game name, AppID and status, the rate line only under the
condition of line 193, the two progress lines only when `progress` is not
`None` (line 196), then the closing state line. -/
def renderReport (gname : Option (List Char)) (a : List Char) (s : Option ℚ)
    (stt : List Char) (p : Option ℚ) (d t : Option ℕ) : List (List Char) :=
  [strL "Игра: " ++ pyStrOpt gname,
   strL "AppID: " ++ a,
   strL "Статус: " ++ stt] ++
  (if s.isSome = true ∧ stt = strL "загружается" then
    [strL "Скорость: " ++ format_speed s]
  else []) ++
  (match p with
   | some pv =>
     [strL "Прогресс: " ++ formatFixed 1 pv ++ strL "%",
      strL "Загружено: " ++ format_size d ++ strL " / " ++ format_size t]
   | none => []) ++
  [strL "Состояние: " ++ stt]

/-- Model of `display_info` (lines 175-202). The result pairs the updated monitor
state with the rendered report lines; the unconditional three header lines
(separator rules and the timestamp, lines 179-181) are wall-clock I/O and
are not part of the model. Unpacking the 3-tuple returned on a missing or
unreadable log file into the six targets of line 177 raises `ValueError`
in Python, modelled by `Except.error .valueError`. -/
def display_info (store : List Char → Option (List Char)) (st : MonState)
    (file : Option (List (List Char))) :
    Except PErr (MonState × List (List Char)) :=
  match parse_log_file file with
  | .error e => .error e
  | .ok (.tuple3 _ _ _) => .error .valueError
  | .ok (.tuple6 appid speed status progress downloaded total) =>
    match appid with
    | none => .ok (st, [strL "Нет активных загрузок"])
    | some a =>
      let st2 : MonState :=
        if st.current_appid = some a then st
        else ⟨some a, some (get_game_name_from_manifest store a)⟩
      .ok (st2, renderReport st2.game_name a speed status progress downloaded total)

/-- A manifest store with no readable record for any AppID. -/
def emptyStore : List Char → Option (List Char) := fun _ => none

/-- A manifest store holding a well-formed record for AppID 42. -/
def goodStore : List Char → Option (List Char) := fun a =>
  if a = strL "42" then some (strL "\"name\"\t\"Portal\"") else none

/-- Value of `clash p q` is `true` when the pattern `p` already disagrees with the
concrete front `q` of a line, so `p` cannot occur at the front of `q ++ x`
for any continuation `x`. -/
def clash : List Char → List Char → Bool
  | [], _ => false
  | _ :: _, [] => false
  | n :: ns, c :: cs => if c = n then clash ns cs else true

/-- The phase keyword extracted from a single line by the status block
(lines 126-136), as an optional value: `some` exactly when the line both
contains `App update changed` and one of the five recognized keywords. -/
def phaseOf (l : List Char) : Option (List Char) :=
  if hasSub (strL "App update changed") l then
    if hasSub (strL "Downloading") l then some (strL "загружается")
    else if hasSub (strL "Paused") l then some (strL "на паузе")
    else if hasSub (strL "Verifying") l then some (strL "проверка файлов")
    else if hasSub (strL "Preallocating") l then some (strL "подготовка места")
    else if hasSub (strL "Staging") l then some (strL "распаковка")
    else none
  else none

/-- A line is rate-safe when its rate match, if any, carries a token that
`float` accepts: exactly the lines on which the speed step cannot raise. -/
def rateOk (l : List Char) : Bool :=
  match searchRate l with
  | none => true
  | some tok => (parseFloatTok tok).isSome

theorem stepStatus_eq (status l) : stepStatus status l = (phaseOf l).getD status := by
  unfold stepStatus phaseOf
  split_ifs <;> rfl

theorem stepSpeed_ok (s : Option ℚ) (l : List Char) (h : rateOk l = true) :
    ∃ v, stepSpeed s l = .ok v := by
  cases s with
  | some q => exact ⟨some q, rfl⟩
  | none =>
    unfold stepSpeed
    unfold rateOk at h
    cases hr : searchRate l with
    | none => exact ⟨none, rfl⟩
    | some tok =>
      rw [hr] at h
      dsimp only at h
      cases hp : parseFloatTok tok with
      | none => rw [hp] at h; simp at h
      | some q =>
        refine ⟨some q, ?_⟩
        dsimp only
        rw [hp]

theorem getLast?_cons_some {α : Type} (x : α) (xs : List α) :
    ∃ y, (x :: xs).getLast? = some y := by
  induction xs generalizing x with
  | nil => exact ⟨x, rfl⟩
  | cons b bs ih => rw [List.getLast?_cons_cons]; exact ih b

theorem getD_getLast?_filterMap_cons {α β : Type} (f : α → Option β)
    (a : α) (l : List α) (d : β) :
    (((a :: l).filterMap f).getLast?).getD d =
      ((l.filterMap f).getLast?).getD ((f a).getD d) := by
  rw [List.filterMap_cons]
  cases hf : f a with
  | none => rfl
  | some b =>
    cases hl : l.filterMap f with
    | nil => rfl
    | cons x xs =>
      rw [List.getLast?_cons_cons]
      obtain ⟨y, hy⟩ := getLast?_cons_some x xs
      rw [hy]
      rfl

theorem scan_full (ls : List (List Char)) :
    ∀ (a : Option (List Char)) (s : Option ℚ) (st : List Char),
    (∀ l ∈ ls, hasSub (strL "update started") l = false) →
    (∀ l ∈ ls, rateOk l = true) →
    ∃ a2 s2, scanLines ls a s st =
      .ok (.tuple6 a2 s2 (((ls.filterMap phaseOf).getLast?).getD st)
        none none none) := by
  induction ls with
  | nil => intro a s st _ _; exact ⟨a, s, rfl⟩
  | cons l rest ih =>
    intro a s st hupd hrate
    obtain ⟨v, hv⟩ := stepSpeed_ok s l (hrate l (List.mem_cons_self l rest))
    have hu : hasSub (strL "update started") l = false :=
      hupd l (List.mem_cons_self l rest)
    obtain ⟨a2, s2, hrec⟩ := ih (stepAppid a l) v (stepStatus st l)
      (fun x hx => hupd x (List.mem_cons_of_mem l hx))
      (fun x hx => hrate x (List.mem_cons_of_mem l hx))
    refine ⟨a2, s2, ?_⟩
    have hstep : scanLines (l :: rest) a s st =
        scanLines rest (stepAppid a l) v (stepStatus st l) := by
      simp only [scanLines]
      rw [hv]
      dsimp only
      rw [hu]
      rfl
    rw [hstep, hrec, stepStatus_eq, getD_getLast?_filterMap_cons]

theorem trimWindow_of_le (lines : List (List Char)) (h : lines.length ≤ 50) :
    trimWindow lines = lines := by
  unfold trimWindow
  rw [if_neg (by omega)]

theorem trimWindow_append (older xs : List (List Char)) (h : xs.length ≤ 50) :
    ∃ M : List (List Char), trimWindow (older ++ xs) = M ++ xs := by
  unfold trimWindow
  split_ifs with hlen
  · refine ⟨older.drop ((older ++ xs).length - 50), ?_⟩
    have hle : (older ++ xs).length - 50 ≤ older.length := by
      rw [List.length_append]; omega
    exact List.drop_append_of_le_length hle
  · exact ⟨older, rfl⟩

theorem scan_progress_inv (ls : List (List Char)) :
    ∀ (a : Option (List Char)) (s : Option ℚ) (st : List Char)
      (a2 : Option (List Char)) (s2 : Option ℚ) (st2 : List Char) (p : ℚ)
      (d t : Option ℕ),
    scanLines ls a s st = .ok (.tuple6 a2 s2 st2 (some p) d t) →
    a2.isSome = true ∧ ∃ tv, t = some tv ∧ 0 < tv := by
  induction ls with
  | nil =>
    intro a s st a2 s2 st2 p d t h
    simp only [scanLines] at h
    injection h with h
    injection h
    simp_all
  | cons l rest ih =>
    intro a s st a2 s2 st2 p d t h
    simp only [scanLines] at h
    cases hv : stepSpeed s l with
    | error e => rw [hv] at h; dsimp only at h; exact absurd h (by simp)
    | ok v =>
      rw [hv] at h
      dsimp only at h
      by_cases hc : hasSub (strL "update started") l && (stepAppid a l).isSome
      · rw [if_pos hc] at h
        cases hd : searchDownload l with
        | none => rw [hd] at h; exact ih _ _ _ _ _ _ _ _ _ h
        | some dt =>
          rw [hd] at h
          dsimp only at h
          by_cases ht : 0 < dt.2
          · rw [if_pos ht] at h
            injection h with h
            injection h with h1 h2 h3 h4 h5 h6
            refine ⟨by rw [← h1]; exact (Bool.and_elim_right hc), dt.2, ?_, ht⟩
            exact h6.symm
          · rw [if_neg ht] at h
            exact ih _ _ _ _ _ _ _ _ _ h
      · rw [if_neg hc] at h
        exact ih _ _ _ _ _ _ _ _ _ h

theorem scan_no_appid (ls : List (List Char)) :
    ∀ (s : Option ℚ) (st : List Char) (a2 : Option (List Char)) (s2 : Option ℚ)
      (st2 : List Char) (p : Option ℚ) (d t : Option ℕ),
    (∀ l ∈ ls, searchAppID l = none) →
    scanLines ls none s st = .ok (.tuple6 a2 s2 st2 p d t) →
    p = none ∧ a2 = none := by
  induction ls with
  | nil =>
    intro s st a2 s2 st2 p d t _ h
    simp only [scanLines] at h
    injection h with h
    injection h
    simp_all
  | cons l rest ih =>
    intro s st a2 s2 st2 p d t hno h
    have hax : stepAppid none l = none := by
      unfold stepAppid
      exact hno l (List.mem_cons_self l rest)
    simp only [scanLines] at h
    cases hv : stepSpeed s l with
    | error e => rw [hv] at h; dsimp only at h; exact absurd h (by simp)
    | ok v =>
      rw [hv] at h
      dsimp only at h
      rw [hax] at h
      simp only [Option.isSome_none, Bool.and_false, Bool.false_eq_true,
        if_false] at h
      exact ih _ _ _ _ _ _ _ _ (fun x hx => hno x (List.mem_cons_of_mem l hx)) h

theorem atFront_of_clash : ∀ p q : List Char, clash p q = true →
    ∀ x, atFront p (q ++ x) = false := by
  intro p
  induction p with
  | nil => intro q h x; simp [clash] at h
  | cons n ns ih =>
    intro q h x
    cases q with
    | nil => simp [clash] at h
    | cons c cs =>
      simp only [clash] at h
      by_cases hc : c = n
      · rw [if_pos hc] at h
        subst hc
        show (litAt (c :: ns) (c :: (cs ++ x))).isSome = false
        unfold litAt
        rw [if_pos rfl]
        exact ih cs h x
      · show (litAt (n :: ns) (c :: (cs ++ x))).isSome = false
        unfold litAt
        rw [if_neg hc]
        rfl

theorem display_cached (store : List Char → Option (List Char)) (st : MonState)
    (lines : List (List Char)) (a : List Char) (s : Option ℚ) (stt : List Char)
    (p : Option ℚ) (d t : Option ℕ)
    (hp : parse_log_file (some lines) = .ok (.tuple6 (some a) s stt p d t))
    (hcur : st.current_appid = some a) :
    display_info store st (some lines) =
      .ok (st, renderReport st.game_name a s stt p d t) := by
  unfold display_info
  rw [hp]
  dsimp only
  rw [if_pos hcur]

theorem display_no_session (store : List Char → Option (List Char))
    (st : MonState) (lines : List (List Char)) (s : Option ℚ) (stt : List Char)
    (p : Option ℚ) (d t : Option ℕ)
    (hp : parse_log_file (some lines) = .ok (.tuple6 none s stt p d t)) :
    display_info store st (some lines) =
      .ok (st, [strL "Нет активных загрузок"]) := by
  unfold display_info
  rw [hp]

theorem renderReport_no_rate (gname : Option (List Char)) (a : List Char)
    (s : Option ℚ) (stt : List Char) (p : Option ℚ) (d t : Option ℕ)
    (hne : stt ≠ strL "загружается") :
    ∀ l ∈ renderReport gname a s stt p d t,
      atFront (strL "Скорость:") l = false := by
  unfold renderReport
  rw [if_neg (fun h => hne h.2)]
  intro l hl
  simp only [List.append_nil, List.nil_append, List.mem_append, List.mem_cons,
    List.not_mem_nil, or_false] at hl
  rcases hl with ((h | h | h) | hp) | h
  · subst h; exact atFront_of_clash _ (strL "Игра: ") (by decide) _
  · subst h; exact atFront_of_clash _ (strL "AppID: ") (by decide) _
  · subst h; exact atFront_of_clash _ (strL "Статус: ") (by decide) _
  · cases p with
    | none => simp at hp
    | some pv =>
      simp only [List.mem_cons, List.not_mem_nil, or_false] at hp
      rcases hp with h | h
      · subst h
        rw [List.append_assoc]
        exact atFront_of_clash _ (strL "Прогресс: ") (by decide) _
      · subst h
        rw [List.append_assoc, List.append_assoc]
        exact atFront_of_clash _ (strL "Загружено: ") (by decide) _
  · subst h; exact atFront_of_clash _ (strL "Состояние: ") (by decide) _

/-- Claim C1, counterexample: in the window
`["App update changed : Downloading", "App update changed : Paused"]`
(most recent last) the parsed status is `загружается` (Downloading), the
phase of the OLDEST phase-change line, not `на паузе` (Paused), the phase
of the line closest to the end: the status block of `parse_log_file` has
no once-only guard, so during the backward scan each older phase-change
line overwrites the status. -/
theorem c1_counterexample :
    parse_log_file (some [strL "App update changed : Downloading",
      strL "App update changed : Paused"]) =
      .ok (.tuple6 none none (strL "загружается") none none none) ∧
    strL "загружается" ≠ strL "на паузе" := by
  constructor
  · with_unfolding_all rfl
  · decide

/-- Claim C1 (amended): for every window of at most 50 lines with no
`update started` line (so the scan runs to completion) and no rate token
that `float` rejects, the parsed status is the phase of the recognized
phase-change line closest to the START of the window (the oldest one) —
each older phase-change line overwrites the status during the backward
scan — and `неизвестно` when there is none. -/
theorem c1_amended_status_oldest_wins (lines : List (List Char))
    (hlen : lines.length ≤ 50)
    (hupd : ∀ l ∈ lines, hasSub (strL "update started") l = false)
    (hrate : ∀ l ∈ lines, rateOk l = true) :
    ∃ a s, parse_log_file (some lines) =
      .ok (.tuple6 a s
        (((lines.filterMap phaseOf).head?).getD (strL "неизвестно"))
        none none none) := by
  unfold parse_log_file
  dsimp only
  rw [trimWindow_of_le lines hlen]
  obtain ⟨a2, s2, h⟩ := scan_full lines.reverse none none (strL "неизвестно")
    (fun l hx => hupd l (List.mem_reverse.mp hx))
    (fun l hx => hrate l (List.mem_reverse.mp hx))
  refine ⟨a2, s2, ?_⟩
  rw [h, List.filterMap_reverse, List.getLast?_reverse]

/-- Claim C1 (amended), witness: the two-phase-line window evaluated
concretely — the oldest line carries `Downloading` and that is the parsed
status. -/
theorem c1_amended_witness :
    ∃ a s, parse_log_file (some [strL "App update changed : Downloading",
      strL "App update changed : Paused"]) =
      .ok (.tuple6 a s (strL "загружается") none none none) := by
  have h := c1_amended_status_oldest_wins
    [strL "App update changed : Downloading", strL "App update changed : Paused"]
    (by decide) (by decide) (by decide)
  have e : ((([strL "App update changed : Downloading",
      strL "App update changed : Paused"]).filterMap phaseOf).head?).getD
      (strL "неизвестно") = strL "загружается" := by decide
  rw [e] at h
  exact h

/-- Claim C2, counterexample: in the window
`["Current download rate: 12.50 Mbps", "update started : download 5/10",
"AppID 7"]` (most recent last) the scan returns from inside the loop at
the `update started` line and never reaches the oldest line, so the rate
stays unresolved (`none`) — although that rate line, had it been scanned,
would have resolved the rate to 12.50. -/
theorem c2_counterexample :
    parse_log_file (some [strL "Current download rate: 12.50 Mbps",
      strL "update started : download 5/10", strL "AppID 7"]) =
      .ok (.tuple6 (some (strL "7")) none (strL "неизвестно") (some 50)
        (some 5) (some 10)) ∧
    stepSpeed none (strL "Current download rate: 12.50 Mbps") =
      .ok (some (25 / 2)) := by
  constructor
  · with_unfolding_all rfl
  · with_unfolding_all rfl

/-- Claim C2 (amended): the backward scan DOES terminate early — when it
reaches an `update started` line with a positive-total size pair while the
identifier is already resolved, it returns at once; arbitrarily many older
lines (including rate and status lines) are never considered. -/
theorem c2_amended_early_return (older : List (List Char)) :
    parse_log_file (some (older ++ [strL "update started : download 5/10",
      strL "AppID 7"])) =
      .ok (.tuple6 (some (strL "7")) none (strL "неизвестно") (some 50)
        (some 5) (some 10)) := by
  unfold parse_log_file
  dsimp only
  obtain ⟨M, hM⟩ := trimWindow_append older
    [strL "update started : download 5/10", strL "AppID 7"] (by decide)
  rw [hM, List.reverse_append]
  with_unfolding_all rfl

/-- Claim C3: when the log file is absent or unreadable, `parse_log_file`
returns the 3-tuple `(None, None, None)` (lines 93 and 105), and the
6-target unpacking at line 177 of `display_info` then raises `ValueError`:
the tick does NOT produce the "no active session" report — `display_info`
fails with an exception (which only the `monitor` loop's per-tick handler
catches). This evaluates the code at the failing input of the code bug. -/
theorem c3_missing_log_crashes_tick (store : List Char → Option (List Char))
    (st : MonState) :
    display_info store st none = .error .valueError := rfl

/-- Claim C4, counterexample: the line
`"Current download rate: 1.2.3 Mbps"` matches the rate pattern with the
captured token `1.2.3`, which `float` rejects; the `ValueError` is not
caught inside `parse_log_file` (its `try` only wraps the file read), so
the whole parse fails instead of skipping that single match. -/
theorem c4_counterexample :
    parse_log_file (some [strL "Current download rate: 1.2.3 Mbps"]) =
      .error .valueError := by
  with_unfolding_all rfl

/-- Claim C4 (amended): a window whose most recent line matches the rate
pattern with a malformed numeric token makes the whole parse of that tick
raise `ValueError`, whatever else the window contains — that single match
is not skipped and the rest of the window is not parsed. -/
theorem c4_amended_malformed_rate_raises (older : List (List Char)) :
    parse_log_file (some (older ++
      [strL "Current download rate: 1.2.3 Mbps"])) = .error .valueError := by
  unfold parse_log_file
  dsimp only
  obtain ⟨M, hM⟩ := trimWindow_append older
    [strL "Current download rate: 1.2.3 Mbps"] (by decide)
  rw [hM, List.reverse_append]
  with_unfolding_all rfl

theorem mem_trimWindow {l : List Char} {lines : List (List Char)}
    (h : l ∈ trimWindow lines) : l ∈ lines := by
  unfold trimWindow at h
  split_ifs at h with hc
  · exact List.mem_of_mem_drop h
  · exact h

/-- Claim C5: (1) whenever the snapshot parsed from a window carries a
progress value, the AppID is present and the total is a strictly positive
number (the early return of line 147 fires only under `appid` truthy and
`total > 0`); (2) a window none of whose lines matches the AppID pattern
yields no progress value, whatever size-pair lines it contains. -/
theorem c5_progress_invariant :
    (∀ (lines : List (List Char)) (a : Option (List Char)) (s : Option ℚ)
       (st : List Char) (p : ℚ) (d t : Option ℕ),
      parse_log_file (some lines) = .ok (.tuple6 a s st (some p) d t) →
      a.isSome = true ∧ ∃ tv, t = some tv ∧ 0 < tv) ∧
    (∀ (lines : List (List Char)) (a : Option (List Char)) (s : Option ℚ)
       (st : List Char) (p : Option ℚ) (d t : Option ℕ),
      (∀ l ∈ lines, searchAppID l = none) →
      parse_log_file (some lines) = .ok (.tuple6 a s st p d t) →
      p = none) := by
  constructor
  · intro lines a s st p d t h
    unfold parse_log_file at h
    dsimp only at h
    exact scan_progress_inv _ _ _ _ _ _ _ _ _ _ h
  · intro lines a s st p d t hno h
    unfold parse_log_file at h
    dsimp only at h
    exact (scan_no_appid _ _ _ _ _ _ _ _ _
      (fun l hx => hno l (mem_trimWindow (List.mem_reverse.mp hx))) h).1

/-- Claim C5, witness: part one applied to the end-to-end window (progress
present, AppID present, total 2000 > 0); part two applied to a window
holding a size-pair line but no identifier line (progress absent). -/
theorem c5_witness :
    ((some (strL "42") : Option (List Char)).isSome = true ∧
      ∃ tv, (some 2000 : Option ℕ) = some tv ∧ 0 < tv) ∧
    (none : Option ℚ) = none := by
  constructor
  · exact c5_progress_invariant.1
      [strL "update started : download 1000/2000", strL "AppID 42",
       strL "App update changed : Downloading",
       strL "Current download rate: 12.50 Mbps"]
      (some (strL "42")) (some (25 / 2)) (strL "загружается") 50
      (some 1000) (some 2000) (by with_unfolding_all rfl)
  · exact c5_progress_invariant.2 [strL "update started : download 5/10"]
      none none (strL "неизвестно") none none none (by decide)
      (by with_unfolding_all rfl)

/-- Claim C6, counterexample: with no readable manifest, a tick for AppID 42
stores the placeholder `Игра (AppID: 42)` in the `(current_appid,
game_name)` cache; a later tick for the same AppID — now with a readable
manifest naming the game `Portal` — does not retry the lookup and keeps
reporting the placeholder, although `get_game_name_from_manifest` itself
would now succeed. The claim says the placeholder is not cached and a
later resolution is still possible; the code caches it and never retries
until the AppID changes. -/
theorem c6_counterexample :
    display_info emptyStore ⟨none, none⟩ (some [strL "AppID 42"]) =
      .ok (⟨some (strL "42"), some (strL "Игра (AppID: 42)")⟩,
        [strL "Игра: Игра (AppID: 42)", strL "AppID: 42",
         strL "Статус: неизвестно", strL "Состояние: неизвестно"]) ∧
    display_info goodStore
      ⟨some (strL "42"), some (strL "Игра (AppID: 42)")⟩
      (some [strL "AppID 42"]) =
      .ok (⟨some (strL "42"), some (strL "Игра (AppID: 42)")⟩,
        [strL "Игра: Игра (AppID: 42)", strL "AppID: 42",
         strL "Статус: неизвестно", strL "Состояние: неизвестно"]) ∧
    get_game_name_from_manifest goodStore (strL "42") = strL "Portal" := by
  refine ⟨?_, ?_, ?_⟩ <;> with_unfolding_all rfl

/-- Claim C6 (amended): on lookup failure `get_game_name_from_manifest`
does return the deterministic placeholder embedding the AppID; but
`display_info` stores that placeholder in the name cache and records the
AppID as current, so while the cached AppID equals the parsed one the
manifest store is never consulted again — the report is independent of
the store's contents. -/
theorem c6_amended_placeholder_cached :
    (∀ (store : List Char → Option (List Char)) (a : List Char),
      store a = none →
      get_game_name_from_manifest store a = placeholderName a) ∧
    (∀ (store1 store2 : List Char → Option (List Char)) (st : MonState)
       (lines : List (List Char)) (a : List Char) (s : Option ℚ)
       (stt : List Char) (p : Option ℚ) (d t : Option ℕ),
      parse_log_file (some lines) = .ok (.tuple6 (some a) s stt p d t) →
      st.current_appid = some a →
      display_info store1 st (some lines) =
        display_info store2 st (some lines)) := by
  constructor
  · intro store a h
    unfold get_game_name_from_manifest
    rw [h]
  · intro store1 store2 st lines a s stt p d t hp hcur
    rw [display_cached store1 st lines a s stt p d t hp hcur,
      display_cached store2 st lines a s stt p d t hp hcur]

/-- Claim C6 (amended), witness: the failure placeholder for AppID 7, and
the store-independence of a tick whose AppID equals the cached one. -/
theorem c6_amended_witness :
    get_game_name_from_manifest emptyStore (strL "7") =
      placeholderName (strL "7") ∧
    display_info emptyStore
        ⟨some (strL "42"), some (strL "Игра (AppID: 42)")⟩
        (some [strL "AppID 42"]) =
      display_info goodStore
        ⟨some (strL "42"), some (strL "Игра (AppID: 42)")⟩
        (some [strL "AppID 42"]) := by
  constructor
  · exact c6_amended_placeholder_cached.1 emptyStore (strL "7") rfl
  · exact c6_amended_placeholder_cached.2 emptyStore goodStore
      ⟨some (strL "42"), some (strL "Игра (AppID: 42)")⟩ [strL "AppID 42"]
      (strL "42") none (strL "неизвестно") none none none
      (by with_unfolding_all rfl) rfl

/-- Claim C7: whenever the parsed status differs from `загружается`
(Downloading), no line of the rendered report starts with `Скорость:`
(the rate label) — the rate line is guarded by
`speed is not None and status == 'загружается'` (line 193), so an
internally resolved rate is never surfaced outside the Downloading
phase. -/
theorem c7_rate_suppressed (store : List Char → Option (List Char))
    (st : MonState) (lines : List (List Char)) (a : Option (List Char))
    (s : Option ℚ) (stt : List Char) (p : Option ℚ) (d t : Option ℕ)
    (st2 : MonState) (rep : List (List Char))
    (hp : parse_log_file (some lines) = .ok (.tuple6 a s stt p d t))
    (hne : stt ≠ strL "загружается")
    (hd : display_info store st (some lines) = .ok (st2, rep)) :
    ∀ l ∈ rep, atFront (strL "Скорость:") l = false := by
  unfold display_info at hd
  rw [hp] at hd
  dsimp only at hd
  cases a with
  | none =>
    simp only [Except.ok.injEq, Prod.mk.injEq] at hd
    obtain ⟨-, hrep⟩ := hd
    subst hrep
    intro l hl
    simp only [List.mem_cons, List.not_mem_nil, or_false] at hl
    subst hl
    decide
  | some av =>
    simp only [Except.ok.injEq, Prod.mk.injEq] at hd
    obtain ⟨-, hrep⟩ := hd
    subst hrep
    exact renderReport_no_rate _ av s stt p d t hne

/-- Claim C7, witness: a window resolving AppID 42, a 12.50 Mbps rate and
the `Paused` phase; the rendered report carries no `Скорость:` line. -/
theorem c7_witness :
    atFront (strL "Скорость:") (strL "Игра: Игра (AppID: 42)") = false ∧
    atFront (strL "Скорость:") (strL "AppID: 42") = false ∧
    atFront (strL "Скорость:") (strL "Статус: на паузе") = false ∧
    atFront (strL "Скорость:") (strL "Состояние: на паузе") = false := by
  have h := c7_rate_suppressed emptyStore ⟨none, none⟩
    [strL "AppID 42", strL "Current download rate: 12.50 Mbps",
     strL "App update changed : Paused"]
    (some (strL "42")) (some (25 / 2)) (strL "на паузе") none none none
    ⟨some (strL "42"), some (strL "Игра (AppID: 42)")⟩
    [strL "Игра: Игра (AppID: 42)", strL "AppID: 42",
     strL "Статус: на паузе", strL "Состояние: на паузе"]
    (by with_unfolding_all rfl) (by decide) (by with_unfolding_all rfl)
  exact ⟨h _ (by simp), h _ (by simp), h _ (by simp), h _ (by simp)⟩

/-- Claim C8: the end-to-end example — the four-line window yields AppID
`42`, status `загружается` (Downloading), rate 12.50 Mbps, progress
1000 of 2000 bytes; the rendered report carries the rate line
`Скорость: 12.50 Mbps` and the progress line `Прогресс: 50.0%`. -/
theorem c8_end_to_end :
    parse_log_file (some [strL "update started : download 1000/2000",
      strL "AppID 42", strL "App update changed : Downloading",
      strL "Current download rate: 12.50 Mbps"]) =
      .ok (.tuple6 (some (strL "42")) (some (25 / 2)) (strL "загружается")
        (some 50) (some 1000) (some 2000)) ∧
    display_info emptyStore ⟨none, none⟩
      (some [strL "update started : download 1000/2000", strL "AppID 42",
        strL "App update changed : Downloading",
        strL "Current download rate: 12.50 Mbps"]) =
      .ok (⟨some (strL "42"), some (strL "Игра (AppID: 42)")⟩,
        [strL "Игра: Игра (AppID: 42)", strL "AppID: 42",
         strL "Статус: загружается", strL "Скорость: 12.50 Mbps",
         strL "Прогресс: 50.0%", strL "Загружено: 1000 B / 1.95 KB",
         strL "Состояние: загружается"]) := by
  constructor
  · with_unfolding_all rfl
  · with_unfolding_all rfl

/-- Claim C9: formatter totality (both functions are total Lean functions)
and threshold equalities — `format_speed` switches to Gbps at 1000 Mbps,
`format_size` uses binary thresholds, and both map `None` to the
`неизвестно` sentinel. -/
theorem c9_formatter_thresholds :
    format_speed (some (99999 / 100)) = strL "999.99 Mbps" ∧
    format_speed (some 1000) = strL "1.00 Gbps" ∧
    format_size (some 1023) = strL "1023 B" ∧
    format_size (some 1024) = strL "1.00 KB" ∧
    format_size (some 1073741824) = strL "1.00 GB" ∧
    format_speed none = strL "неизвестно" ∧
    format_size none = strL "неизвестно" := by
  refine ⟨?_, ?_, ?_, ?_, ?_, rfl, rfl⟩ <;> with_unfolding_all rfl

/-- Claim C10: a tick whose window resolves no AppID renders only the
`Нет активных загрузок` line and returns the monitor state unchanged —
the name cache is neither cleared nor overwritten; and a tick whose AppID
equals the cached one also leaves the state unchanged (the cache is
touched only when a present AppID differs from the cached one). -/
theorem c10_no_session_keeps_cache :
    (∀ (store : List Char → Option (List Char)) (st : MonState)
       (lines : List (List Char)) (s : Option ℚ) (stt : List Char)
       (p : Option ℚ) (d t : Option ℕ),
      parse_log_file (some lines) = .ok (.tuple6 none s stt p d t) →
      display_info store st (some lines) =
        .ok (st, [strL "Нет активных загрузок"])) ∧
    (∀ (store : List Char → Option (List Char)) (st : MonState)
       (lines : List (List Char)) (a : List Char) (s : Option ℚ)
       (stt : List Char) (p : Option ℚ) (d t : Option ℕ),
      parse_log_file (some lines) = .ok (.tuple6 (some a) s stt p d t) →
      st.current_appid = some a →
      ∃ rep, display_info store st (some lines) = .ok (st, rep)) := by
  constructor
  · intro store st lines s stt p d t hp
    exact display_no_session store st lines s stt p d t hp
  · intro store st lines a s stt p d t hp hcur
    exact ⟨_, display_cached store st lines a s stt p d t hp hcur⟩

/-- Claim C10, witness: an empty window (no AppID) leaves the fresh state
untouched; a window resolving the already-cached AppID 42 also returns
the state unchanged. -/
theorem c10_witness :
    display_info emptyStore ⟨none, none⟩ (some []) =
      .ok (⟨none, none⟩, [strL "Нет активных загрузок"]) ∧
    ∃ rep, display_info emptyStore
        ⟨some (strL "42"), some (strL "Portal")⟩ (some [strL "AppID 42"]) =
      .ok (⟨some (strL "42"), some (strL "Portal")⟩, rep) := by
  constructor
  · exact c10_no_session_keeps_cache.1 emptyStore ⟨none, none⟩ [] none
      (strL "неизвестно") none none none rfl
  · exact c10_no_session_keeps_cache.2 emptyStore
      ⟨some (strL "42"), some (strL "Portal")⟩ [strL "AppID 42"]
      (strL "42") none (strL "неизвестно") none none none
      (by with_unfolding_all rfl) rfl
